import Mathlib

/-!
A verification development for `update-models.py`, a one-shot utility that
scans a models directory for CSV files and writes their sorted filenames
into a JSON manifest called `models.json`.

The script is embedded shallowly: the filesystem is a record holding the
existence flag of the models directory plus its entries as
(filename, content) pairs; `update_models_json` mirrors the body of the
Python function of the same name line by line, and `pyMain` mirrors the
`__main__` block (which calls the function and discards its return value,
so the interpreter exits with status 0).
-/

/-- Code-point lexicographic less-or-equal on character lists.  This is the
ordering Python uses when comparing `str` values, hence the ordering used
by `csv_files.sort()` in the script. -/
def lexLe : List Char → List Char → Bool
  | [], _ => true
  | _ :: _, [] => false
  | a :: as, b :: bs =>
    if a.toNat < b.toNat then true
    else if b.toNat < a.toNat then false
    else lexLe as bs

/-- Python string less-or-equal: code-point lexicographic, case-sensitive. -/
def strLe (s t : String) : Bool :=
  lexLe s.toList t.toList

/-- The propositional form of `strLe`, used as the sorting relation. -/
def strLeP (s t : String) : Prop :=
  strLe s t = true

instance : DecidableRel strLeP :=
  fun s t => instDecidableEqBool (strLe s t) true

/-- Whether `p` is a suffix of `s` (Python `str.endswith`). -/
def strEndsWith (s p : String) : Bool :=
  p.toList.isSuffixOf s.toList

/-- Whether `p` starts `s` at position 0. -/
def strStartsWith (s p : String) : Bool :=
  p.toList.isPrefixOf s.toList

/-- Whether `glob.glob(os.path.join(models_dir, "*.csv"))` (lines 21 and 24)
lists a directory entry with this name: the name must match the pattern
`*.csv`, i.e. end in `.csv`, and, by the hidden-file rule of the `glob`
module, a name starting with a dot is never matched by a pattern that does
not itself start with a dot. -/
def globMatchCsv (name : String) : Bool :=
  strEndsWith name ".csv" && !strStartsWith name "."

/-- The `csv_files` list built by the loop at lines 24 to 27: the basenames
of the glob matches, skipping any name equal to `"models.json"`. -/
def csvFilesOf (names : List String) : List String :=
  (names.filter globMatchCsv).filter (fun n => n ≠ "models.json")

/-- The `csv_files` list after `csv_files.sort()` at line 30: the unique
permutation of `csvFilesOf names` that is sorted under the code-point
lexicographic order (Python uses a stable comparison sort over `<=`;
because the order is total and antisymmetric, the sorted permutation is
unique, so insertion sort produces the same list). -/
def sortedCsvFiles (names : List String) : List String :=
  List.insertionSort strLeP (csvFilesOf names)

/-- Hexadecimal digit characters as produced by Python for `\uXXXX`
escapes (lowercase). -/
def hexDigitChar : Nat → Char
  | 0 => '0'
  | 1 => '1'
  | 2 => '2'
  | 3 => '3'
  | 4 => '4'
  | 5 => '5'
  | 6 => '6'
  | 7 => '7'
  | 8 => '8'
  | 9 => '9'
  | 10 => 'a'
  | 11 => 'b'
  | 12 => 'c'
  | 13 => 'd'
  | 14 => 'e'
  | 15 => 'f'
  | _ => '0'

/-- A `\uXXXX` escape for a code unit below 0x10000. -/
def uEscape4 (n : Nat) : List Char :=
  ['\\', 'u', hexDigitChar (n / 4096 % 16), hexDigitChar (n / 256 % 16),
   hexDigitChar (n / 16 % 16), hexDigitChar (n % 16)]

/-- How `json.dump` (with its default `ensure_ascii=True`) renders one
character of a string: the two-character escapes of its escape table,
`\uXXXX` escapes (with surrogate pairs above 0xFFFF) for every other
character outside the printable ASCII range 0x20 to 0x7E, and the
character itself otherwise. -/
def jsonEscapeChar (c : Char) : List Char :=
  if c = '"' then ['\\', '"']
  else if c = '\\' then ['\\', '\\']
  else if c = '\n' then ['\\', 'n']
  else if c = '\t' then ['\\', 't']
  else if c = '\r' then ['\\', 'r']
  else if c.toNat = 8 then ['\\', 'b']
  else if c.toNat = 12 then ['\\', 'f']
  else if c.toNat < 32 ∨ 126 < c.toNat then
    if c.toNat < 65536 then uEscape4 c.toNat
    else uEscape4 (55296 + (c.toNat - 65536) / 1024) ++
         uEscape4 (56320 + (c.toNat - 65536) % 1024)
  else [c]

/-- A JSON string literal for `s`: quote, escaped characters, quote. -/
def jsonStrChars (s : String) : List Char :=
  '"' :: (s.toList.map jsonEscapeChar).flatten ++ ['"']

/-- The elements of a JSON array rendered with `indent=2`: items separated
by a comma, a newline and two spaces of indentation. -/
def jsonItemsChars : List String → List Char
  | [] => []
  | [s] => jsonStrChars s
  | s :: rest => jsonStrChars s ++ ',' :: '\n' :: ' ' :: ' ' :: jsonItemsChars rest

/-- The exact text `json.dump(csv_files, f, indent=2)` writes at line 36
for a list of strings: `[]` for the empty list, and otherwise an opening
bracket, each element on its own line indented by two spaces, and a
closing bracket. -/
def jsonDump (xs : List String) : String :=
  match xs with
  | [] => "[]"
  | _ => String.mk ('[' :: '\n' :: ' ' :: ' ' ::
      (jsonItemsChars xs ++ '\n' :: [']']))

/-- Whether every character of `s` is ASCII.  An ASCII string has the same
bytes under UTF-8 as under any ASCII-compatible encoding, so an
ASCII-only manifest is in particular valid UTF-8 on disk. -/
def asciiOnly (s : String) : Bool :=
  s.toList.all (fun c => c.toNat < 128)

/-- The state of the models directory: whether it exists (what
`os.path.exists(models_dir)` reports at line 14) and, when it does, its
entries as (filename, content) pairs. -/
structure FS where
  dirExists : Bool
  files : List (String × String)

/-- The filenames present in the directory, in listing order. -/
def dirListing (fs : FS) : List String :=
  fs.files.map Prod.fst

/-- Reading the content of a named file, if present. -/
def readFile : List (String × String) → String → Option String
  | [], _ => none
  | (n, c) :: rest, name => if n = name then some c else readFile rest name

/-- The effect of `open(json_file, "w")` followed by a full write: the
content of the named file is replaced if it exists, and the file is
created otherwise. -/
def writeFile : List (String × String) → String → String → List (String × String)
  | [], name, content => [(name, content)]
  | (n, c) :: rest, name, content =>
    if n = name then (n, content) :: rest
    else (n, c) :: writeFile rest name content

/-- The outcome of one invocation of `update_models_json`: the filesystem
afterwards, the boolean return value, and the lines printed to stdout. -/
structure RunResult where
  fs : FS
  ok : Bool
  msgs : List String

/-- The function `update_models_json` of `update-models.py` (lines 7 to
43).  `modelsDir` stands for the path string `models_dir` computed at
lines 11 and 12; `fs` is the state of that directory.  If the directory
does not exist the function prints an error and returns `False` (lines 14
to 16) without touching any file; otherwise it globs for `*.csv`, skips
the name `"models.json"`, sorts, overwrites `models.json` with the
`indent=2` JSON dump of the list, prints its report, and returns
`True`. -/
def update_models_json (modelsDir : String) (fs : FS) : RunResult :=
  if fs.dirExists = false then
    { fs := fs
      ok := false
      msgs := ["Error: Models directory not found at " ++ modelsDir] }
  else
    let csv_files := sortedCsvFiles (dirListing fs)
    { fs := { fs with
        files := writeFile fs.files "models.json" (jsonDump csv_files) }
      ok := true
      msgs := ("Scanning for CSV files in " ++ modelsDir ++ "...") ::
        ("Generated " ++ modelsDir ++ "/models.json with " ++
          toString csv_files.length ++ " CSV files:") ::
        csv_files.map (fun n => "  - " ++ n) ++
        ["\nModels.json has been updated! Your web app will now automatically detect all CSV files."] }

/-- The `if __name__ == "__main__":` block at lines 45 and 46: it calls
`update_models_json()` and discards the returned boolean, so the process
always terminates with exit status 0, whether the call succeeded or
not. -/
def pyMain (modelsDir : String) (fs : FS) : FS × Nat :=
  ((update_models_json modelsDir fs).fs, 0)

/-- Skipping JSON whitespace. -/
def skipSpaces : List Char → List Char
  | [] => []
  | c :: cs =>
    if c = ' ' || c = '\n' || c = '\t' || c = '\r' then skipSpaces cs
    else c :: cs

/-- The value of a hexadecimal digit character. -/
def hexVal (c : Char) : Option Nat :=
  if '0' ≤ c ∧ c ≤ '9' then some (c.toNat - 48)
  else if 'a' ≤ c ∧ c ≤ 'f' then some (c.toNat - 87)
  else if 'A' ≤ c ∧ c ≤ 'F' then some (c.toNat - 55)
  else none

/-- Parsing the body of a JSON string literal (the opening quote already
consumed), returning the decoded characters and the remaining input.  The
fuel argument only bounds recursion depth; one unit is spent per consumed
character, so any fuel beyond the input length is enough. -/
def parseJsonString : Nat → List Char → Option (List Char × List Char)
  | 0, _ => none
  | _ + 1, [] => none
  | fuel + 1, c :: cs =>
    if c = '"' then some ([], cs)
    else if c = '\\' then
      match cs with
      | [] => none
      | e :: cs2 =>
        if e = 'u' then
          match cs2 with
          | h1 :: h2 :: h3 :: h4 :: cs3 =>
            match hexVal h1, hexVal h2, hexVal h3, hexVal h4 with
            | some a, some b, some c2, some d =>
              (fun r => (Char.ofNat (a * 4096 + b * 256 + c2 * 16 + d) :: r.1, r.2)) <$>
                parseJsonString fuel cs3
            | _, _, _, _ => none
          | _ => none
        else
          match
            (if e = '"' then some '"'
             else if e = '\\' then some '\\'
             else if e = '/' then some '/'
             else if e = 'n' then some '\n'
             else if e = 't' then some '\t'
             else if e = 'r' then some '\r'
             else if e = 'b' then some (Char.ofNat 8)
             else if e = 'f' then some (Char.ofNat 12)
             else none) with
          | none => none
          | some d => (fun r => (d :: r.1, r.2)) <$> parseJsonString fuel cs2
    else (fun r => (c :: r.1, r.2)) <$> parseJsonString fuel cs

/-- Parsing one or more comma-separated JSON string elements up to the
closing bracket of the array. -/
def parseElems : Nat → List Char → Option (List String × List Char)
  | 0, _ => none
  | fuel + 1, cs =>
    match skipSpaces cs with
    | '"' :: rest =>
      match parseJsonString (fuel + 1) rest with
      | none => none
      | some (chars, rest2) =>
        match skipSpaces rest2 with
        | ',' :: rest3 =>
          match parseElems fuel rest3 with
          | some (strs, rest4) => some (String.mk chars :: strs, rest4)
          | none => none
        | ']' :: rest3 => some ([String.mk chars], rest3)
        | _ => none
    | _ => none

/-- Parsing a complete JSON array of strings, as the consumer of the
manifest would: the parsed content of the manifest file. -/
def parseManifest (s : String) : Option (List String) :=
  match skipSpaces s.toList with
  | '[' :: rest =>
    match skipSpaces rest with
    | ']' :: rest2 => if (skipSpaces rest2).isEmpty then some [] else none
    | _ =>
      match parseElems (s.length + 1) rest with
      | some (strs, rest2) => if (skipSpaces rest2).isEmpty then some strs else none
      | none => none
  | _ => none

example : parseManifest (jsonDump ["a.csv", "b.csv", "c.csv"]) =
    some ["a.csv", "b.csv", "c.csv"] := by decide

example : sortedCsvFiles ["model1.csv", "Model2.csv"] =
    ["Model2.csv", "model1.csv"] := by decide

example : parseManifest "[]" = some [] := by decide

/-! ## Properties of the code-point order -/

theorem lexLe_trans (a : List Char) :
    ∀ b c, lexLe a b = true → lexLe b c = true → lexLe a c = true := by
  induction a with
  | nil => intro b c _ _; rfl
  | cons x xs ih =>
    intro b c h1 h2
    cases b with
    | nil => simp [lexLe] at h1
    | cons y ys =>
      cases c with
      | nil => simp [lexLe] at h2
      | cons z zs =>
        simp only [lexLe] at h1 h2 ⊢
        by_cases hxy : x.toNat < y.toNat
        · by_cases hyz : y.toNat < z.toNat
          · simp [show x.toNat < z.toNat by omega]
          · simp [hxy] at h1
            by_cases hzy : z.toNat < y.toNat
            · simp [hyz, hzy] at h2
            · simp [show x.toNat < z.toNat by omega]
        · by_cases hyx : y.toNat < x.toNat
          · simp [hxy, hyx] at h1
          · by_cases hyz : y.toNat < z.toNat
            · simp [show x.toNat < z.toNat by omega]
            · by_cases hzy : z.toNat < y.toNat
              · simp [hyz, hzy] at h2
              · simp [hxy, hyx] at h1
                simp [hyz, hzy] at h2
                simp [show ¬ x.toNat < z.toNat by omega,
                  show ¬ z.toNat < x.toNat by omega]
                exact ih ys zs h1 h2

theorem lexLe_total (a : List Char) :
    ∀ b, lexLe a b = true ∨ lexLe b a = true := by
  induction a with
  | nil => intro b; left; rfl
  | cons x xs ih =>
    intro b
    cases b with
    | nil => right; rfl
    | cons y ys =>
      simp only [lexLe]
      by_cases hxy : x.toNat < y.toNat
      · left; simp [hxy]
      · by_cases hyx : y.toNat < x.toNat
        · right; simp [hyx]
        · rcases ih ys with h | h
          · left; simp [hxy, hyx, h]
          · right; simp [hxy, hyx, h]

theorem char_eq_of_toNat_eq {a b : Char} (h : a.toNat = b.toNat) : a = b := by
  apply Char.ext
  apply UInt32.ext
  exact h

theorem lexLe_antisymm (a : List Char) :
    ∀ b, lexLe a b = true → lexLe b a = true → a = b := by
  induction a with
  | nil =>
    intro b _ h2
    cases b with
    | nil => rfl
    | cons y ys => simp [lexLe] at h2
  | cons x xs ih =>
    intro b h1 h2
    cases b with
    | nil => simp [lexLe] at h1
    | cons y ys =>
      simp only [lexLe] at h1 h2
      by_cases hxy : x.toNat < y.toNat
      · simp [show ¬ y.toNat < x.toNat by omega, hxy] at h2
      · by_cases hyx : y.toNat < x.toNat
        · simp [hxy, hyx] at h1
        · simp [hxy, hyx] at h1 h2
          have hx : x = y := char_eq_of_toNat_eq (by omega)
          rw [hx, ih ys h1 h2]

theorem string_eq_of_toList_eq {s t : String} (h : s.toList = t.toList) : s = t := by
  cases s
  cases t
  exact congrArg String.mk h

instance : IsTrans String strLeP :=
  ⟨fun a b c h1 h2 => lexLe_trans a.toList b.toList c.toList h1 h2⟩

instance : IsTotal String strLeP :=
  ⟨fun a b => lexLe_total a.toList b.toList⟩

instance : IsAntisymm String strLeP :=
  ⟨fun a b h1 h2 => string_eq_of_toList_eq (lexLe_antisymm a.toList b.toList h1 h2)⟩

/-! ## Basic facts about the embedded operations -/

theorem sortedCsvFiles_sorted (names : List String) :
    List.Sorted strLeP (sortedCsvFiles names) :=
  List.sorted_insertionSort strLeP (csvFilesOf names)

theorem sortedCsvFiles_perm (names : List String) :
    List.Perm (sortedCsvFiles names) (csvFilesOf names) :=
  List.perm_insertionSort strLeP (csvFilesOf names)

theorem sortedCsvFiles_congr_perm {names names2 : List String}
    (h : List.Perm names names2) :
    sortedCsvFiles names = sortedCsvFiles names2 := by
  apply List.eq_of_perm_of_sorted (r := strLeP)
  · exact (sortedCsvFiles_perm names).trans
      (((h.filter globMatchCsv).filter (fun n => n ≠ "models.json")).trans
        (sortedCsvFiles_perm names2).symm)
  · exact sortedCsvFiles_sorted names
  · exact sortedCsvFiles_sorted names2

theorem glob_ne_modelsJson {n : String} (h : globMatchCsv n = true) :
    n ≠ "models.json" := by
  intro e
  rw [e] at h
  exact absurd h (by decide)

theorem csvFilesOf_eq_filter (names : List String) :
    csvFilesOf names = names.filter globMatchCsv := by
  unfold csvFilesOf
  rw [List.filter_filter]
  apply List.filter_congr
  intro a _
  cases h : globMatchCsv a with
  | false => simp [h]
  | true => simp [h, glob_ne_modelsJson h]

theorem readFile_writeFile (files : List (String × String))
    (name content : String) :
    readFile (writeFile files name content) name = some content := by
  induction files with
  | nil => simp [writeFile, readFile]
  | cons hd tl ih =>
    by_cases h : hd.1 = name
    · simp [writeFile, readFile, h]
    · cases hd with
      | mk n c => simp only at h; simp [writeFile, readFile, h, ih]

theorem filter_glob_write (files : List (String × String)) (content : String) :
    ((writeFile files "models.json" content).map Prod.fst).filter globMatchCsv
      = (files.map Prod.fst).filter globMatchCsv := by
  induction files with
  | nil => simp [writeFile, show globMatchCsv "models.json" = false from by decide]
  | cons hd tl ih =>
    cases hd with
    | mk n c =>
      by_cases h : n = "models.json"
      · simp [writeFile, h]
      · simp only [writeFile, if_neg h, List.map_cons, List.filter_cons]
        rw [ih]

/-! ## The dump is pure ASCII -/

theorem hexDigitChar_ascii (n : Nat) : (hexDigitChar n).toNat < 128 := by
  rcases n with _|_|_|_|_|_|_|_|_|_|_|_|_|_|_|_|n
  all_goals first
    | decide
    | exact (by decide : ('0' : Char).toNat < 128)

theorem uEscape4_ascii (n : Nat) : ∀ c ∈ uEscape4 n, c.toNat < 128 := by
  intro c hc
  simp only [uEscape4, List.mem_cons, List.not_mem_nil, or_false] at hc
  rcases hc with rfl | rfl | rfl | rfl | rfl | rfl
  · decide
  · decide
  · exact hexDigitChar_ascii _
  · exact hexDigitChar_ascii _
  · exact hexDigitChar_ascii _
  · exact hexDigitChar_ascii _

theorem jsonEscapeChar_ascii (c : Char) : ∀ d ∈ jsonEscapeChar c, d.toNat < 128 := by
  intro d hd
  unfold jsonEscapeChar at hd
  split_ifs at hd with h1 h2 h3 h4 h5 h6 h7 h8 h9
  · simp only [List.mem_cons, List.not_mem_nil, or_false] at hd
    rcases hd with rfl | rfl <;> decide
  · simp only [List.mem_cons, List.not_mem_nil, or_false] at hd
    rcases hd with rfl | rfl <;> decide
  · simp only [List.mem_cons, List.not_mem_nil, or_false] at hd
    rcases hd with rfl | rfl <;> decide
  · simp only [List.mem_cons, List.not_mem_nil, or_false] at hd
    rcases hd with rfl | rfl <;> decide
  · simp only [List.mem_cons, List.not_mem_nil, or_false] at hd
    rcases hd with rfl | rfl <;> decide
  · simp only [List.mem_cons, List.not_mem_nil, or_false] at hd
    rcases hd with rfl | rfl <;> decide
  · simp only [List.mem_cons, List.not_mem_nil, or_false] at hd
    rcases hd with rfl | rfl <;> decide
  · exact uEscape4_ascii _ d hd
  · rcases List.mem_append.mp hd with h | h
    · exact uEscape4_ascii _ d h
    · exact uEscape4_ascii _ d h
  · simp only [List.mem_cons, List.not_mem_nil, or_false] at hd
    subst hd
    push_neg at h8
    omega

theorem jsonStrChars_ascii (s : String) : ∀ c ∈ jsonStrChars s, c.toNat < 128 := by
  intro c hc
  simp only [jsonStrChars, List.mem_cons, List.mem_append, List.not_mem_nil,
    or_false] at hc
  rcases hc with (rfl | hc) | rfl
  · decide
  · rcases List.mem_flatten.mp hc with ⟨l, hl, hcl⟩
    rcases List.mem_map.mp hl with ⟨ch, _, rfl⟩
    exact jsonEscapeChar_ascii ch c hcl
  · decide

theorem jsonItemsChars_ascii (xs : List String) :
    ∀ c ∈ jsonItemsChars xs, c.toNat < 128 := by
  induction xs with
  | nil => intro c hc; simp [jsonItemsChars] at hc
  | cons s rest ih =>
    cases rest with
    | nil =>
      intro c hc
      exact jsonStrChars_ascii s c (by simpa [jsonItemsChars] using hc)
    | cons t ts =>
      intro c hc
      simp only [jsonItemsChars, List.mem_append, List.mem_cons] at hc
      rcases hc with h | rfl | rfl | rfl | rfl | h
      · exact jsonStrChars_ascii s c h
      · decide
      · decide
      · decide
      · decide
      · exact ih c h

theorem mem_sortedCsvFiles {n : String} {names : List String} :
    n ∈ sortedCsvFiles names ↔ globMatchCsv n = true ∧ n ∈ names := by
  rw [(sortedCsvFiles_perm names).mem_iff, csvFilesOf_eq_filter, List.mem_filter]
  exact and_comm

theorem update_preserves_dirExists (modelsDir : String) (fs : FS) :
    (update_models_json modelsDir fs).fs.dirExists = fs.dirExists := by
  unfold update_models_json
  split <;> rfl

theorem update_fs_files (modelsDir : String) (fs : FS)
    (hdir : fs.dirExists = true) :
    (update_models_json modelsDir fs).fs.files
      = writeFile fs.files "models.json"
          (jsonDump (sortedCsvFiles (dirListing fs))) := by
  simp [update_models_json, hdir]

theorem update_writes (modelsDir : String) (fs : FS)
    (hdir : fs.dirExists = true) :
    readFile (update_models_json modelsDir fs).fs.files "models.json"
      = some (jsonDump (sortedCsvFiles (dirListing fs))) := by
  rw [update_fs_files modelsDir fs hdir, readFile_writeFile]

theorem sortedCsvFiles_after_update (modelsDir : String) (fs : FS)
    (hdir : fs.dirExists = true) :
    sortedCsvFiles (dirListing (update_models_json modelsDir fs).fs)
      = sortedCsvFiles (dirListing fs) := by
  rw [show dirListing (update_models_json modelsDir fs).fs
      = (update_models_json modelsDir fs).fs.files.map Prod.fst from rfl,
    update_fs_files modelsDir fs hdir]
  unfold sortedCsvFiles
  rw [csvFilesOf_eq_filter, csvFilesOf_eq_filter, filter_glob_write]
  rfl

theorem jsonDump_ascii (xs : List String) : asciiOnly (jsonDump xs) = true := by
  cases xs with
  | nil => decide
  | cons s rest =>
    simp only [jsonDump, asciiOnly]
    rw [show (String.mk ('[' :: '\n' :: ' ' :: ' ' ::
        (jsonItemsChars (s :: rest) ++ '\n' :: [']']))).toList =
      '[' :: '\n' :: ' ' :: ' ' ::
        (jsonItemsChars (s :: rest) ++ '\n' :: [']']) from rfl]
    simp only [List.all_eq_true, decide_eq_true_eq]
    intro c hc
    simp only [List.mem_cons, List.mem_append, List.not_mem_nil, or_false] at hc
    rcases hc with rfl | rfl | rfl | rfl | hc | rfl | rfl
    · decide
    · decide
    · decide
    · decide
    · exact jsonItemsChars_ascii _ c hc
    · decide
    · decide

/-! ## The claims -/

/-- C1: for every directory whose contents are exactly the files `a.csv`,
`c.csv`, `b.csv` and `models.json`, running the generator writes a manifest
whose parsed content equals the JSON array
`["a.csv", "b.csv", "c.csv"]`: the listing matches the `.csv` suffix,
excludes the name of the manifest itself, and is sorted ascending. -/
theorem C1_manifest_of_three_csvs (modelsDir : String) (fs : FS)
    (hdir : fs.dirExists = true)
    (hnames : List.Perm (dirListing fs)
      ["a.csv", "c.csv", "b.csv", "models.json"]) :
    readFile (update_models_json modelsDir fs).fs.files "models.json"
      = some (jsonDump ["a.csv", "b.csv", "c.csv"])
    ∧ parseManifest (jsonDump ["a.csv", "b.csv", "c.csv"])
      = some ["a.csv", "b.csv", "c.csv"] := by
  have hsort : sortedCsvFiles (dirListing fs) = ["a.csv", "b.csv", "c.csv"] := by
    rw [sortedCsvFiles_congr_perm hnames]
    decide
  refine ⟨?_, by decide⟩
  rw [update_writes modelsDir fs hdir, hsort]

theorem C1_manifest_of_three_csvs_witness :
    readFile (update_models_json "models" (FS.mk true
        [("a.csv", ""), ("c.csv", ""), ("b.csv", ""),
         ("models.json", "old")])).fs.files "models.json"
      = some (jsonDump ["a.csv", "b.csv", "c.csv"])
    ∧ parseManifest (jsonDump ["a.csv", "b.csv", "c.csv"])
      = some ["a.csv", "b.csv", "c.csv"] :=
  C1_manifest_of_three_csvs "models" _ rfl (by decide)

/-- C2: whenever the models directory does not exist, the run changes no
file at all (the filesystem record is returned unchanged), the single
message printed is the user-facing directory-not-found error, and the
function returns the failure value `False`. -/
theorem C2_dir_missing_aborts (modelsDir : String) (fs : FS)
    (h : fs.dirExists = false) :
    update_models_json modelsDir fs =
      { fs := fs
        ok := false
        msgs := ["Error: Models directory not found at " ++ modelsDir] } := by
  simp [update_models_json, h]

theorem C2_dir_missing_aborts_witness :
    update_models_json "m" (FS.mk false [("a.csv", "stale")]) =
      { fs := FS.mk false [("a.csv", "stale")]
        ok := false
        msgs := ["Error: Models directory not found at " ++ "m"] } :=
  C2_dir_missing_aborts "m" _ rfl

/-- C3 as stated is false: at a state whose models directory is missing,
the directory-not-found condition occurs, yet the process exit status is
0 (success), so the exit status does not indicate failure exactly when
the condition occurs. -/
theorem C3_exit_status_counterexample :
    ¬ (((pyMain "models" (FS.mk false [])).2 ≠ 0) ↔
        (FS.mk false []).dirExists = false) := by
  decide

/-- C3 amended: the `__main__` block discards the boolean returned by
`update_models_json`, so the process always exits with status 0; it is
that returned boolean, not the exit status, that indicates failure
exactly when the directory-not-found condition occurs. -/
theorem C3_exit_always_zero (modelsDir : String) (fs : FS) :
    (pyMain modelsDir fs).2 = 0
    ∧ ((update_models_json modelsDir fs).ok = false ↔
        fs.dirExists = false) := by
  refine ⟨rfl, ?_⟩
  unfold update_models_json
  cases h : fs.dirExists <;> simp

/-- C4: every generated listing is sorted under the exact code-point
lexicographic order, case-sensitively; consequently the names
`Model2.csv` and `model1.csv`, whenever present in the directory, both
appear in the manifest and `Model2.csv` appears strictly before
`model1.csv`. -/
theorem C4_sorted_code_point :
    (∀ names : List String, List.Sorted strLeP (sortedCsvFiles names))
    ∧ (∀ names : List String, "Model2.csv" ∈ names →
        "Model2.csv" ∈ sortedCsvFiles names)
    ∧ (∀ names : List String, "model1.csv" ∈ names →
        "model1.csv" ∈ sortedCsvFiles names)
    ∧ (∀ (names : List String) (i j : Fin (sortedCsvFiles names).length),
        (sortedCsvFiles names).get i = "Model2.csv" →
        (sortedCsvFiles names).get j = "model1.csv" →
        (i : Nat) < (j : Nat)) := by
  refine ⟨sortedCsvFiles_sorted, ?_, ?_, ?_⟩
  · intro names h
    exact mem_sortedCsvFiles.mpr ⟨by decide, h⟩
  · intro names h
    exact mem_sortedCsvFiles.mpr ⟨by decide, h⟩
  · intro names i j hi hj
    rcases Nat.lt_trichotomy (i : Nat) (j : Nat) with h | h | h
    · exact h
    · exfalso
      rw [Fin.ext h, hj] at hi
      exact absurd hi (by decide)
    · exfalso
      have hrel := (sortedCsvFiles_sorted names).rel_get_of_lt
        (show j < i from h)
      rw [hi, hj] at hrel
      exact absurd hrel (by decide)

theorem C4_sorted_code_point_witness :
    "Model2.csv" ∈ sortedCsvFiles ["model1.csv", "Model2.csv"]
    ∧ (((⟨0, by decide⟩ : Fin (sortedCsvFiles
          ["model1.csv", "Model2.csv"]).length) : Nat)
        < ((⟨1, by decide⟩ : Fin (sortedCsvFiles
          ["model1.csv", "Model2.csv"]).length) : Nat)) :=
  ⟨C4_sorted_code_point.2.1 ["model1.csv", "Model2.csv"] (by decide),
   C4_sorted_code_point.2.2.2 ["model1.csv", "Model2.csv"]
     ⟨0, by decide⟩ ⟨1, by decide⟩ (by decide) (by decide)⟩

/-- C5: when no filename in the directory has the `.csv` suffix (in
particular when the directory is empty or holds only `models.json`), the
generator writes the manifest `[]`, which parses to the empty array. -/
theorem C5_no_csv_gives_empty (modelsDir : String) (fs : FS)
    (hdir : fs.dirExists = true)
    (hnone : ∀ n ∈ dirListing fs, strEndsWith n ".csv" = false) :
    readFile (update_models_json modelsDir fs).fs.files "models.json"
      = some "[]"
    ∧ parseManifest "[]" = some ([] : List String) := by
  have hempty : sortedCsvFiles (dirListing fs) = [] := by
    have hfil : csvFilesOf (dirListing fs) = [] := by
      rw [csvFilesOf_eq_filter]
      apply List.filter_eq_nil_iff.mpr
      intro a ha
      simp [globMatchCsv, hnone a ha]
    rw [sortedCsvFiles, hfil]
    rfl
  rw [update_writes modelsDir fs hdir, hempty]
  exact ⟨rfl, by decide⟩

theorem C5_no_csv_gives_empty_witness :
    readFile (update_models_json "m" (FS.mk true
        [("models.json", "stale"), ("readme.txt", "")])).fs.files
        "models.json"
      = some "[]"
    ∧ parseManifest "[]" = some ([] : List String) :=
  C5_no_csv_gives_empty "m" _ rfl (by decide)

/-- C6: running the generator twice in a row on a directory yields
byte-identical manifest content, and the manifest bytes are a function of
the set of filenames alone: any permutation of the directory listing
produces the same dump. -/
theorem C6_idempotent :
    (∀ (modelsDir : String) (fs : FS), fs.dirExists = true →
      readFile (update_models_json modelsDir
          (update_models_json modelsDir fs).fs).fs.files "models.json"
        = readFile (update_models_json modelsDir fs).fs.files "models.json")
    ∧ (∀ names names2 : List String, List.Perm names names2 →
        jsonDump (sortedCsvFiles names) = jsonDump (sortedCsvFiles names2)) := by
  constructor
  · intro modelsDir fs hdir
    have hdir2 : (update_models_json modelsDir fs).fs.dirExists = true := by
      rw [update_preserves_dirExists]
      exact hdir
    rw [update_writes _ _ hdir2, update_writes _ _ hdir,
      sortedCsvFiles_after_update modelsDir fs hdir]
  · intro names names2 h
    rw [sortedCsvFiles_congr_perm h]

theorem C6_idempotent_witness :
    readFile (update_models_json "m" (update_models_json "m"
        (FS.mk true [("b.csv", ""), ("a.csv", "")])).fs).fs.files
        "models.json"
      = readFile (update_models_json "m"
        (FS.mk true [("b.csv", ""), ("a.csv", "")])).fs.files "models.json"
    ∧ jsonDump (sortedCsvFiles ["b.csv", "a.csv"])
      = jsonDump (sortedCsvFiles ["a.csv", "b.csv"]) :=
  ⟨C6_idempotent.1 "m" (FS.mk true [("b.csv", ""), ("a.csv", "")]) rfl,
   C6_idempotent.2 ["b.csv", "a.csv"] ["a.csv", "b.csv"] (by decide)⟩

/-- C7: after every successful run the written manifest is the dump of a
listing that does not contain the name `models.json`: the manifest never
lists itself. -/
theorem C7_manifest_excludes_self (modelsDir : String) (fs : FS)
    (hok : (update_models_json modelsDir fs).ok = true) :
    readFile (update_models_json modelsDir fs).fs.files "models.json"
      = some (jsonDump (sortedCsvFiles (dirListing fs)))
    ∧ "models.json" ∉ sortedCsvFiles (dirListing fs) := by
  have hdir : fs.dirExists = true := by
    by_contra h
    rw [Bool.not_eq_true] at h
    simp [update_models_json, h] at hok
  refine ⟨update_writes modelsDir fs hdir, ?_⟩
  intro hmem
  exact glob_ne_modelsJson (mem_sortedCsvFiles.mp hmem).1 rfl

theorem C7_manifest_excludes_self_witness :
    readFile (update_models_json "m"
        (FS.mk true [("a.csv", "")])).fs.files "models.json"
      = some (jsonDump (sortedCsvFiles
          (dirListing (FS.mk true [("a.csv", "")]))))
    ∧ "models.json" ∉ sortedCsvFiles
        (dirListing (FS.mk true [("a.csv", "")])) :=
  C7_manifest_excludes_self "m" _ (by decide)

/-- C8: every successful run replaces the content of `models.json`
outright with the `indent=2` pretty-printed JSON dump of the sorted
listing, and that dump is pure ASCII, hence identical to its UTF-8
encoding on disk. -/
theorem C8_overwrites_pretty_ascii (modelsDir : String) (fs : FS)
    (hdir : fs.dirExists = true) :
    readFile (update_models_json modelsDir fs).fs.files "models.json"
      = some (jsonDump (sortedCsvFiles (dirListing fs)))
    ∧ asciiOnly (jsonDump (sortedCsvFiles (dirListing fs))) = true :=
  ⟨update_writes modelsDir fs hdir, jsonDump_ascii _⟩

theorem C8_overwrites_pretty_ascii_witness :
    readFile (update_models_json "m" (FS.mk true
        [("models.json", "stale"), ("a.csv", "")])).fs.files "models.json"
      = some (jsonDump (sortedCsvFiles (dirListing (FS.mk true
          [("models.json", "stale"), ("a.csv", "")]))))
    ∧ asciiOnly (jsonDump (sortedCsvFiles (dirListing (FS.mk true
          [("models.json", "stale"), ("a.csv", "")])))) = true :=
  C8_overwrites_pretty_ascii "m" _ rfl

/-- C9: the explicit exclusion of the name `models.json` inside the scan
loop is redundant, because no name matched by the `*.csv` glob can equal
`models.json`; the filter-then-exclude pipeline equals the plain glob
filter on every listing. -/
theorem C9_exclusion_redundant (names : List String) :
    csvFilesOf names = names.filter globMatchCsv :=
  csvFilesOf_eq_filter names

/-- C10: a name with the `.csv` suffix can still be omitted from the
manifest: any name beginning with a dot is never matched by the `*.csv`
glob, so a file such as `.hidden.csv` ends in `.csv` yet never appears
in any generated listing. -/
theorem C10_hidden_csv_omitted :
    strEndsWith ".hidden.csv" ".csv" = true
    ∧ (∀ name : String, strStartsWith name "." = true →
        globMatchCsv name = false)
    ∧ (∀ names : List String, ".hidden.csv" ∉ sortedCsvFiles names) := by
  refine ⟨by decide, ?_, ?_⟩
  · intro name h
    simp [globMatchCsv, h]
  · intro names hmem
    exact absurd (mem_sortedCsvFiles.mp hmem).1 (by decide)

theorem C10_hidden_csv_omitted_witness :
    globMatchCsv ".hidden.csv" = false :=
  C10_hidden_csv_omitted.2.1 ".hidden.csv" (by decide)
